import Mathlib

/-!
Verification of the `sam-sqlserver-database` core services against their
natural-language specification.

The development shallowly embeds the two service modules
(`services/csv_import_service.py` and `services/database_service.py`):

* the identifier sanitizer `CsvImportService._sanitize_identifier` as a pure
  function over `List Char` (ASCII model of Python's `str.isalnum`,
  `str.isdigit`, `str.lower`);
* the column-definition construction and row-batch collection of
  `CsvImportService._import_single_csv_file` as pure functions, and the whole
  per-file import as a transition on an explicit database state;
* the batch driver `CsvImportService.import_csv_files` as a fold over the file
  list, where the per-file import is an oracle that may fail (modelling a
  raised Python exception) and failures are caught at the per-file boundary;
* `DatabaseService.execute_query` and `DatabaseService.get_unique_values`
  over an execution oracle modelling the SQLAlchemy connection: a cursor
  result carries a `returns_rows` flag, result keys, row values and an
  optional DBAPI `rowcount`;
* the keyword arguments each dialect subclass passes to
  `sqlalchemy.create_engine` as a concrete record.
-/

/- ## Character-level bridge lemmas (ASCII model of the Python `str` methods) -/

theorem uint32_le_iff (a b : UInt32) : (a ≤ b) ↔ a.toNat ≤ b.toNat := by
  simp [UInt32.le_def, BitVec.le_def, UInt32.toNat]

theorem char_toNat_ofNat_of_lt {n : Nat} (h : n < 55296) : (Char.ofNat n).toNat = n := by
  rw [Char.ofNat, dif_pos (Or.inl h)]
  rfl

theorem char_eq_iff_toNat (c d : Char) : c = d ↔ c.toNat = d.toNat := by
  constructor
  · intro h; rw [h]
  · intro h
    apply Char.eq_of_val_eq
    apply UInt32.ext
    exact h

theorem isDigit_iff (c : Char) : c.isDigit = true ↔ 48 ≤ c.toNat ∧ c.toNat ≤ 57 := by
  simp [Char.isDigit, uint32_le_iff]
  exact Iff.rfl

theorem isAlphanum_iff (c : Char) :
    c.isAlphanum = true ↔
      (65 ≤ c.toNat ∧ c.toNat ≤ 90) ∨ (97 ≤ c.toNat ∧ c.toNat ≤ 122) ∨
        (48 ≤ c.toNat ∧ c.toNat ≤ 57) := by
  simp [Char.isAlphanum, Char.isAlpha, Char.isUpper, Char.isLower, Char.isDigit, uint32_le_iff]
  tauto

theorem toLower_toNat (c : Char) :
    (Char.toLower c).toNat = if 65 ≤ c.toNat ∧ c.toNat ≤ 90 then c.toNat + 32 else c.toNat := by
  rw [Char.toLower]
  split
  · next h => rw [char_toNat_ofNat_of_lt (by omega)]
  · rfl

theorem underscore_toNat : ('_' : Char).toNat = 95 := by decide

theorem toLower_not_upper (c : Char) :
    ¬(65 ≤ (Char.toLower c).toNat ∧ (Char.toLower c).toNat ≤ 90) := by
  rw [toLower_toNat]
  split <;> omega

theorem toLower_eq_self_of_not_upper (c : Char) (h : ¬(65 ≤ c.toNat ∧ c.toNat ≤ 90)) :
    Char.toLower c = c := by
  rw [char_eq_iff_toNat, toLower_toNat, if_neg h]

theorem toLower_toLower (c : Char) : Char.toLower (Char.toLower c) = Char.toLower c :=
  toLower_eq_self_of_not_upper _ (toLower_not_upper c)

theorem toLower_isAlphanum (c : Char) (h : c.isAlphanum = true) :
    (Char.toLower c).isAlphanum = true := by
  rw [isAlphanum_iff] at h ⊢
  rw [toLower_toNat]
  split <;> omega

theorem toLower_isDigit (c : Char) : (Char.toLower c).isDigit = c.isDigit := by
  rcases h : c.isDigit with _ | _
  · rcases h2 : (Char.toLower c).isDigit with _ | _
    · rfl
    · rw [isDigit_iff] at h2
      rw [toLower_toNat] at h2
      have h3 : ¬(48 ≤ c.toNat ∧ c.toNat ≤ 57) := by
        intro hc
        exact absurd (isDigit_iff c |>.mpr hc) (by simp [h])
      split at h2 <;> omega
  · rw [isDigit_iff] at h ⊢
    rw [toLower_toNat]
    split <;> omega

theorem toLower_eq_underscore (c : Char) : Char.toLower c = '_' ↔ c = '_' := by
  rw [char_eq_iff_toNat, char_eq_iff_toNat, toLower_toNat, underscore_toNat]
  split <;> omega

/- ## Identifier sanitizer (`CsvImportService._sanitize_identifier`) -/

/-- One character of the generator expression in `_sanitize_identifier`:
`c if c.isalnum() else "_"`. -/
def replaceChar (c : Char) : Char := if c.isAlphanum then c else '_'

/-- The string `"".join(c if c.isalnum() else "_" for c in identifier)`. -/
def replaceNonAlnum (s : List Char) : List Char := s.map replaceChar

/-- Python `sanitized[0].isdigit()` guarded by emptiness (`False` on `""`,
as the short-circuit `not sanitized or ...` makes the index safe). -/
def headIsDigit : List Char → Bool
  | [] => false
  | c :: _ => c.isDigit

/-- Python `sanitized.startswith("_")`. -/
def headIsUnderscore : List Char → Bool
  | [] => false
  | c :: _ => c == '_'

/-- The reassignment `sanitized = "tbl_" + sanitized if ... else "col_" + sanitized`
guarded by `if not sanitized or sanitized[0].isdigit() or sanitized.startswith("_")`
in `_sanitize_identifier`. -/
def applyOutsidePre (s : List Char) : List Char :=
  if s.isEmpty || headIsDigit s || headIsUnderscore s then
    if s.isEmpty || headIsDigit s then
      't' :: 'b' :: 'l' :: '_' :: s
    else
      'c' :: 'o' :: 'l' :: '_' :: s
  else s

/-- Shallow embedding of `CsvImportService._sanitize_identifier`: replace
non-alphanumerics by `_`; if the result is empty, starts with a digit or
starts with `_`, prepend `tbl_` when it is empty or starts with a digit and
`col_` otherwise; finally lower-case. -/
def sanitize_identifier (identifier : List Char) : List Char :=
  (applyOutsidePre (replaceNonAlnum identifier)).map Char.toLower

/-- Modelled from the spec (section 4.4, "Identifier Sanitizer rule"), branch
step: if the replaced string is empty or starts with a digit, prepend `tbl_`;
else if it is empty or starts with `_`, prepend `col_`. -/
def applySpecPre (s : List Char) : List Char :=
  if s.isEmpty || headIsDigit s then
    't' :: 'b' :: 'l' :: '_' :: s
  else if s.isEmpty || headIsUnderscore s then
    'c' :: 'o' :: 'l' :: '_' :: s
  else s

/-- Modelled from the spec (section 4.4, "Identifier Sanitizer rule"): replace
every non-alphanumeric character with `_`; apply the `tbl_`/`col_` branch
rule; lower-case the final result.  Stated separately so the source function
can be proved to refine the spec's wording. -/
def sanitizeSpecRule (identifier : List Char) : List Char :=
  (applySpecPre (replaceNonAlnum identifier)).map Char.toLower

/-- String-level wrapper of the sanitizer (Python strings become `List Char`
via `String.data`). -/
def sanitizeStr (s : String) : String := String.mk (sanitize_identifier s.data)

/-- A safe lower-case SQL identifier: non-empty, made of alphanumerics and
underscores, containing no upper-case letter, and starting with a
lower-case letter. -/
def isSafeLowerIdentifier (s : String) : Bool :=
  !s.isEmpty &&
    s.data.all (fun c => c.isAlphanum || c == '_') &&
    s.data.all (fun c => !c.isUpper) &&
    (match s.data with
     | [] => false
     | c :: _ => c.isLower)

/- ## Sanitizer lemmas -/

theorem replaceChar_safe (c : Char) :
    ((replaceChar c).isAlphanum || replaceChar c == '_') = true := by
  rw [replaceChar]
  split
  · next h => simp [h]
  · simp

theorem replaceChar_fixed (c : Char) (h : (c.isAlphanum || c == '_') = true) :
    replaceChar c = c := by
  rw [replaceChar]
  rcases Bool.or_eq_true_iff.mp h with h1 | h1
  · rw [if_pos h1]
  · have h2 : c = '_' := by simpa using h1
    subst h2
    rfl

theorem toLower_safe (c : Char) (h : (c.isAlphanum || c == '_') = true) :
    ((Char.toLower c).isAlphanum || Char.toLower c == '_') = true := by
  rcases Bool.or_eq_true_iff.mp h with h1 | h1
  · simp [toLower_isAlphanum c h1]
  · have h2 : c = '_' := by simpa using h1
    subst h2
    decide

/-- Every character kept or introduced by the `tbl_`/`col_` step of the
source sanitizer is alphanumeric-or-underscore whenever the input's
characters are. -/
theorem applyOutsidePre_safe (s : List Char)
    (hs : ∀ d ∈ s, (d.isAlphanum || d == '_') = true) :
    ∀ d ∈ applyOutsidePre s, (d.isAlphanum || d == '_') = true := by
  intro d hd
  rw [applyOutsidePre] at hd
  split at hd
  · split at hd <;>
      simp only [List.mem_cons] at hd <;>
        rcases hd with rfl | rfl | rfl | rfl | hd <;>
          first
            | decide
            | exact hs d hd
  · exact hs d hd

/-- Every character of the sanitizer's output is an alphanumeric or an
underscore, and is fixed by `Char.toLower`. -/
theorem sanitize_chars (x : List Char) (c : Char) (hc : c ∈ sanitize_identifier x) :
    ((c.isAlphanum || c == '_') = true) ∧ Char.toLower c = c := by
  rw [sanitize_identifier] at hc
  have hmem : ∀ d ∈ replaceNonAlnum x, (d.isAlphanum || d == '_') = true := by
    intro d hd
    rw [replaceNonAlnum] at hd
    rcases List.mem_map.mp hd with ⟨e, _, he⟩
    rw [← he]
    exact replaceChar_safe e
  rcases List.mem_map.mp hc with ⟨d, hd, hdc⟩
  constructor
  · rw [← hdc]
    exact toLower_safe d (applyOutsidePre_safe _ hmem d hd)
  · rw [← hdc]
    exact toLower_toLower d

/-- The sanitizer's output is non-empty, does not start with a digit, and does
not start with an underscore. -/
theorem sanitize_head (x : List Char) :
    sanitize_identifier x ≠ [] ∧
      headIsDigit (sanitize_identifier x) = false ∧
      headIsUnderscore (sanitize_identifier x) = false := by
  rw [sanitize_identifier, applyOutsidePre]
  split
  · split
    · refine ⟨by simp, ?_, ?_⟩ <;> simp only [List.map, headIsDigit, headIsUnderscore] <;> decide
    · refine ⟨by simp, ?_, ?_⟩ <;> simp only [List.map, headIsDigit, headIsUnderscore] <;> decide
  · next hcond =>
    simp only [Bool.or_eq_true, not_or, Bool.not_eq_true] at hcond
    obtain ⟨⟨hemp, hdig⟩, hund⟩ := hcond
    rcases hs : replaceNonAlnum x with _ | ⟨c, rest⟩
    · rw [hs] at hemp
      simp [List.isEmpty] at hemp
    · rw [hs] at hdig hund
      refine ⟨by simp, ?_, ?_⟩
      · simp only [List.map, headIsDigit] at hdig ⊢
        rw [toLower_isDigit]
        exact hdig
      · simp only [List.map, headIsUnderscore] at hund ⊢
        simp only [beq_eq_false_iff_ne, ne_eq] at hund ⊢
        intro hcc
        exact absurd ((toLower_eq_underscore c).mp hcc) hund

theorem map_fixed {l : List Char} (f : Char → Char) (h : ∀ c ∈ l, f c = c) :
    l.map f = l := by
  induction l with
  | nil => rfl
  | cons c rest ih =>
    simp only [List.map, h c (by simp)]
    rw [ih (fun d hd => h d (by simp [hd]))]

/-- The source's branch step and the spec's branch step agree on every list. -/
theorem applyOutsidePre_eq_applySpecPre (s : List Char) :
    applyOutsidePre s = applySpecPre s := by
  rw [applyOutsidePre, applySpecPre]
  rcases he : s.isEmpty with _ | _ <;>
    rcases hd : headIsDigit s with _ | _ <;>
      rcases hu : headIsUnderscore s with _ | _ <;>
        simp [he, hd, hu]

/-- List-level idempotence of the sanitizer. -/
theorem sanitize_identifier_idem (x : List Char) :
    sanitize_identifier (sanitize_identifier x) = sanitize_identifier x := by
  have hy := sanitize_chars x
  obtain ⟨hne, hdig, hund⟩ := sanitize_head x
  set y := sanitize_identifier x with hy_def
  have hrep : replaceNonAlnum y = y := by
    rw [replaceNonAlnum]
    exact map_fixed replaceChar (fun c hc => replaceChar_fixed c (hy c hc).1)
  have hlow : y.map Char.toLower = y :=
    map_fixed Char.toLower (fun c hc => (hy c hc).2)
  have hemp : y.isEmpty = false := by
    rcases hyy : y with _ | _
    · exact absurd hyy hne
    · rfl
  rw [sanitize_identifier, hrep, applyOutsidePre, hemp, hdig, hund]
  simp only [Bool.or_false, if_false]
  exact hlow

/- ## C2 / C3 theorems -/

/-- C2: for every input string, the identifier sanitizer computes exactly the
spec's rule: replace each non-alphanumeric character with `_`; then, if the
result is empty or starts with a digit, prepend `tbl_`; else if it is empty or
starts with `_`, prepend `col_`; finally lower-case the result. -/
theorem sanitize_identifier_matches_spec_rule (s : String) :
    sanitizeStr s = String.mk (sanitizeSpecRule s.data) := by
  rw [sanitizeStr, sanitize_identifier, sanitizeSpecRule, applyOutsidePre_eq_applySpecPre]

/- ## CSV import: table/column construction (`_import_single_csv_file`) -/

/-- ASCII model of Python `str.lower` on whole strings. -/
def strLower (s : String) : String := String.mk (s.data.map Char.toLower)

/-- SQLAlchemy column type used by the import: `sa.Integer` for the surrogate
key, `sa.Text` for every CSV column. -/
inductive ColType
  | integer
  | text
deriving DecidableEq

/-- One `sa.Column(...)` argument built by `_import_single_csv_file`. -/
structure ColumnDef where
  name : String
  ctype : ColType
  primary_key : Bool
  autoincrement : Bool
deriving DecidableEq

/-- Python `any(h.lower() == "id" for h in sanitized_headers)`. -/
def hasIdHeader (hs : List String) : Bool := hs.any (fun h => strLower h == "id")

/-- The `for header_name in sanitized_headers` loop appending to
`columns_for_table`: an `id` header becomes a text column that is primary key
unless a primary-key `id` column is already present; every other header
becomes a plain text column. -/
def addHeaderColumns (all : List String) (acc : List ColumnDef) :
    List String → List ColumnDef
  | [] => acc
  | h :: rest =>
    if strLower h == "id" && hasIdHeader all then
      addHeaderColumns all
        (acc ++ [⟨h, ColType.text, !(acc.any (fun c => c.name == "id" && c.primary_key)), false⟩])
        rest
    else
      addHeaderColumns all (acc ++ [⟨h, ColType.text, false, false⟩]) rest

/-- The full `columns_for_table` list: a synthesized auto-incrementing integer
`id` primary key first when no sanitized header is `id`, then one column per
sanitized header. -/
def buildColumns (sanitized_headers : List String) : List ColumnDef :=
  addHeaderColumns sanitized_headers
    (if !(hasIdHeader sanitized_headers) then [⟨"id", ColType.integer, true, true⟩] else [])
    sanitized_headers

/-- The row loop of `_import_single_csv_file`: a row whose field count
differs from the header's is skipped (with a warning), every other row is
zipped with the sanitized headers and appended to `data_to_insert`. -/
def collectRows (headers sanitized_headers : List String) :
    List (List String) → List (List (String × String))
  | [] => []
  | row :: rest =>
    if row.length != headers.length then
      collectRows headers sanitized_headers rest
    else
      sanitized_headers.zip row :: collectRows headers sanitized_headers rest

/-- Modelled from the spec (section 4.4, step 6): the batch of well-formed
rows is exactly the rows whose field count equals the header's, each as a
mapping from sanitized header names to cell values. -/
def wellFormedBatch (headers sanitized_headers : List String)
    (dataRows : List (List String)) : List (List (String × String)) :=
  (dataRows.filter (fun r => r.length == headers.length)).map
    (fun r => sanitized_headers.zip r)

/- ## CSV import: per-file import as a database-state transition -/

/-- The table created and populated for one CSV file. -/
structure TableData where
  cols : List ColumnDef
  rows : List (List (String × String))
deriving DecidableEq

/-- The database as seen by the import engine: the tables it contains. -/
abbrev DbState := List (String × TableData)

/-- Python `inspector.has_table(table_name)`. -/
def hasTable (st : DbState) (name : String) : Bool := st.any (fun t => t.1 == name)

/-- One CSV file: its base name (extension already stripped) and its parsed
lines, header first. -/
structure CsvFile where
  base_name : String
  content : List (List String)
deriving DecidableEq

/-- Shallow embedding of `CsvImportService._import_single_csv_file` on the
success path: skip when the sanitized table name exists; return unchanged on a
missing header line (`StopIteration`) or an empty header; otherwise create the
table with `buildColumns` and insert `collectRows` in one batch. -/
def import_single_csv_file (st : DbState) (f : CsvFile) : DbState :=
  if hasTable st (sanitizeStr f.base_name) then st
  else
    match f.content with
    | [] => st
    | headers :: dataRows =>
      if headers.isEmpty then st
      else
        st ++ [(sanitizeStr f.base_name,
          ⟨buildColumns (headers.map sanitizeStr),
           collectRows headers (headers.map sanitizeStr) dataRows⟩)]

/- ## CSV import: the batch driver (`import_csv_files`) -/

/-- The `try/except` around `self._import_single_csv_file(csv_file_path)` in
the batch loop: a raised exception is logged and the database state is kept,
the loop continues. The per-file import is an oracle that may fail. -/
def caughtStep (impOne : DbState → String → Except String DbState)
    (st : DbState) (f : String) : DbState :=
  match impOne st f with
  | Except.ok st2 => st2
  | Except.error _ => st

/-- The `for csv_file_path in all_files_to_process` loop of
`import_csv_files`: returns the final state and the list of files attempted. -/
def import_batch (impOne : DbState → String → Except String DbState) :
    DbState → List String → DbState × List String
  | st, [] => (st, [])
  | st, f :: rest =>
    ((import_batch impOne (caughtStep impOne st f) rest).1,
     f :: (import_batch impOne (caughtStep impOne st f) rest).2)

/-- Shallow embedding of `CsvImportService.import_csv_files` on an already
assembled file list: nothing happens without an engine, otherwise the batch
loop runs over every file. -/
def import_csv_files (impOne : DbState → String → Except String DbState)
    (engine : Bool) (st : DbState) (files : List String) : DbState × List String :=
  if engine then import_batch impOne st files else (st, [])

/- ## CSV import lemmas -/

theorem strLower_sanitizeStr (s : String) : strLower (sanitizeStr s) = sanitizeStr s := by
  rw [strLower, sanitizeStr]
  exact congrArg String.mk (map_fixed Char.toLower (fun c hc => (sanitize_chars s.data c hc).2))

theorem hasIdHeader_iff (sh : List String) (hfix : ∀ h ∈ sh, strLower h = h) :
    hasIdHeader sh = true ↔ "id" ∈ sh := by
  rw [hasIdHeader, List.any_eq_true]
  constructor
  · rintro ⟨h, hh, hbeq⟩
    rw [hfix h hh, beq_iff_eq] at hbeq
    rw [← hbeq]
    exact hh
  · intro hid
    exact ⟨"id", hid, by simp [hfix "id" hid]⟩

theorem addHeaderColumns_no_id (all : List String) (hno : hasIdHeader all = false)
    (l : List String) : ∀ acc : List ColumnDef,
    addHeaderColumns all acc l = acc ++ l.map (fun h => ⟨h, ColType.text, false, false⟩) := by
  induction l with
  | nil => intro acc; simp [addHeaderColumns]
  | cons h rest ih =>
    intro acc
    simp only [addHeaderColumns, hno, Bool.and_false, Bool.false_eq_true, if_false, List.map]
    rw [ih]
    simp

theorem addHeaderColumns_with_id (all : List String) (hid : hasIdHeader all = true)
    (l : List String) : ∀ acc : List ColumnDef,
    (∀ h ∈ l, strLower h = h) →
    (∀ c ∈ acc, c.primary_key = true → c.name = "id") →
    ((addHeaderColumns all acc l).map ColumnDef.name = acc.map ColumnDef.name ++ l ∧
      (∀ c ∈ addHeaderColumns all acc l,
        c ∈ acc ∨ (c.ctype = ColType.text ∧ c.autoincrement = false)) ∧
      (∀ c ∈ addHeaderColumns all acc l, c.primary_key = true → c.name = "id") ∧
      (addHeaderColumns all acc l).countP (fun c => c.primary_key) =
        (if (acc.countP (fun c => c.primary_key)) ≠ 0 then acc.countP (fun c => c.primary_key)
         else if "id" ∈ l then 1 else 0)) := by
  induction l with
  | nil =>
    intro acc _ hinv
    refine ⟨by simp [addHeaderColumns], ?_, ?_, ?_⟩
    · intro c hc
      exact Or.inl (by simpa [addHeaderColumns] using hc)
    · intro c hc
      exact hinv c (by simpa [addHeaderColumns] using hc)
    · simp only [addHeaderColumns, List.not_mem_nil, if_false]
      by_cases h0 : acc.countP (fun c => c.primary_key) = 0
      · simp [h0]
      · simp [h0]
  | cons h rest ih =>
    intro acc hfix hinv
    have hh : strLower h = h := hfix h (by simp)
    have hany : acc.any (fun c => c.name == "id" && c.primary_key) = true ↔
        acc.countP (fun c => c.primary_key) ≠ 0 := by
      rw [List.any_eq_true]
      constructor
      · rintro ⟨c, hc, hcp⟩
        rw [Bool.and_eq_true] at hcp
        have : 0 < acc.countP (fun c => c.primary_key) :=
          List.countP_pos_iff.mpr ⟨c, hc, hcp.2⟩
        omega
      · intro hne
        have : 0 < acc.countP (fun c => c.primary_key) := Nat.pos_of_ne_zero hne
        rcases List.countP_pos_iff.mp this with ⟨c, hc, hcp⟩
        exact ⟨c, hc, by rw [hinv c hc hcp, hcp]; rfl⟩
    by_cases hcase : h = "id"
    · subst hcase
      simp only [addHeaderColumns, hh, hid, Bool.and_true]
      rw [if_pos (by rw [beq_iff_eq])]
      by_cases h0 : acc.countP (fun c => c.primary_key) = 0
      · have hanyf : acc.any (fun c => c.name == "id" && c.primary_key) = false := by
          rcases ha : acc.any (fun c => c.name == "id" && c.primary_key) with _ | _
          · rfl
          · exact absurd (hany.mp ha) (by simp [h0])
        rw [hanyf]
        have hinv2 : ∀ c ∈ acc ++ [⟨"id", ColType.text, !false, false⟩],
            c.primary_key = true → c.name = "id" := by
          intro c hc hcp
          rcases List.mem_append.mp hc with hc | hc
          · exact hinv c hc hcp
          · simp only [List.mem_singleton] at hc
            rw [hc]
        obtain ⟨ihn, ihm, ihp, ihc⟩ :=
          ih (acc ++ [⟨"id", ColType.text, !false, false⟩]) (fun g hg => hfix g (by simp [hg])) hinv2
        refine ⟨?_, ?_, ihp, ?_⟩
        · rw [ihn]
          simp
        · intro c hc
          rcases ihm c hc with hc2 | hc2
          · rcases List.mem_append.mp hc2 with hc3 | hc3
            · exact Or.inl hc3
            · simp only [List.mem_singleton] at hc3
              exact Or.inr (by rw [hc3]; exact ⟨rfl, rfl⟩)
          · exact Or.inr hc2
        · rw [ihc]
          rw [List.countP_append]
          simp [h0, List.countP_cons]
      · have hanyt : acc.any (fun c => c.name == "id" && c.primary_key) = true := hany.mpr h0
        rw [hanyt]
        have hinv2 : ∀ c ∈ acc ++ [⟨"id", ColType.text, !true, false⟩],
            c.primary_key = true → c.name = "id" := by
          intro c hc hcp
          rcases List.mem_append.mp hc with hc | hc
          · exact hinv c hc hcp
          · simp only [List.mem_singleton] at hc
            rw [hc]
        obtain ⟨ihn, ihm, ihp, ihc⟩ :=
          ih (acc ++ [⟨"id", ColType.text, !true, false⟩]) (fun g hg => hfix g (by simp [hg])) hinv2
        refine ⟨?_, ?_, ihp, ?_⟩
        · rw [ihn]
          simp
        · intro c hc
          rcases ihm c hc with hc2 | hc2
          · rcases List.mem_append.mp hc2 with hc3 | hc3
            · exact Or.inl hc3
            · simp only [List.mem_singleton] at hc3
              exact Or.inr (by rw [hc3]; exact ⟨rfl, rfl⟩)
          · exact Or.inr hc2
        · rw [ihc]
          rw [List.countP_append]
          simp [h0, List.countP_cons]
    · have hbeq : (strLower h == "id") = false := by
        rw [hh]
        exact beq_eq_false_iff_ne.mpr hcase
      simp only [addHeaderColumns, hbeq, Bool.false_and, Bool.false_eq_true, if_false]
      have hinv2 : ∀ c ∈ acc ++ [⟨h, ColType.text, false, false⟩],
          c.primary_key = true → c.name = "id" := by
        intro c hc hcp
        rcases List.mem_append.mp hc with hc | hc
        · exact hinv c hc hcp
        · simp only [List.mem_singleton] at hc
          rw [hc] at hcp
          exact absurd hcp (by simp)
      obtain ⟨ihn, ihm, ihp, ihc⟩ :=
        ih (acc ++ [⟨h, ColType.text, false, false⟩]) (fun g hg => hfix g (by simp [hg])) hinv2
      refine ⟨?_, ?_, ihp, ?_⟩
      · rw [ihn]
        simp
      · intro c hc
        rcases ihm c hc with hc2 | hc2
        · rcases List.mem_append.mp hc2 with hc3 | hc3
          · exact Or.inl hc3
          · simp only [List.mem_singleton] at hc3
            exact Or.inr (by rw [hc3]; exact ⟨rfl, rfl⟩)
        · exact Or.inr hc2
      · rw [ihc]
        rw [List.countP_append]
        have hmem : ("id" ∈ h :: rest) ↔ ("id" ∈ rest) := by
          constructor
          · intro hx
            rcases List.mem_cons.mp hx with hx | hx
            · exact absurd hx.symm hcase
            · exact hx
          · intro hx
            exact List.mem_cons_of_mem h hx
        simp [List.countP_cons, hmem]

/- ## C4 / C5 / C6 / C7 theorems -/

/-- C5: for every CSV file imported, if no header sanitizes to `id` the
created column list is a synthesized auto-incrementing integer primary-key
column named `id` followed by one text column per header; if some header
sanitizes to `id`, the columns are exactly one text column per header, none
auto-incrementing, with exactly one primary-key column, and every primary-key
column is named `id`. -/
theorem buildColumns_key_structure (headers : List String) :
    ("id" ∉ headers.map sanitizeStr →
        buildColumns (headers.map sanitizeStr) =
          ⟨"id", ColType.integer, true, true⟩ ::
            (headers.map sanitizeStr).map (fun h => ⟨h, ColType.text, false, false⟩)) ∧
      ("id" ∈ headers.map sanitizeStr →
        ((buildColumns (headers.map sanitizeStr)).map ColumnDef.name =
            headers.map sanitizeStr ∧
          (∀ c ∈ buildColumns (headers.map sanitizeStr),
            c.ctype = ColType.text ∧ c.autoincrement = false) ∧
          (buildColumns (headers.map sanitizeStr)).countP (fun c => c.primary_key) = 1 ∧
          ∀ c ∈ buildColumns (headers.map sanitizeStr),
            c.primary_key = true → c.name = "id")) := by
  have hfix : ∀ h ∈ headers.map sanitizeStr, strLower h = h := by
    intro h hh
    rcases List.mem_map.mp hh with ⟨g, _, hg⟩
    rw [← hg]
    exact strLower_sanitizeStr g
  constructor
  · intro hno
    have hno2 : hasIdHeader (headers.map sanitizeStr) = false := by
      rcases ha : hasIdHeader (headers.map sanitizeStr) with _ | _
      · rfl
      · exact absurd ((hasIdHeader_iff _ hfix).mp ha) hno
    rw [buildColumns, hno2]
    simp only [Bool.not_false, if_pos]
    rw [addHeaderColumns_no_id _ hno2]
    rfl
  · intro hyes
    have hyes2 : hasIdHeader (headers.map sanitizeStr) = true :=
      (hasIdHeader_iff _ hfix).mpr hyes
    rw [buildColumns, hyes2]
    simp only [Bool.not_true, Bool.false_eq_true, if_false]
    obtain ⟨ihn, ihm, ihp, ihc⟩ :=
      addHeaderColumns_with_id _ hyes2 (headers.map sanitizeStr) [] hfix (by simp)
    refine ⟨by simpa using ihn, ?_, ?_, ihp⟩
    · intro c hc
      rcases ihm c hc with hc2 | hc2
      · exact absurd hc2 (List.not_mem_nil c)
      · exact hc2
    · rw [ihc]
      simp [hyes]

/-- C5 witness: on headers `["Name", "Id"]` (so one header sanitizes to `id`)
the built column list has exactly one primary-key column. -/
theorem buildColumns_key_structure_witness :
    (buildColumns (["Name", "Id"].map sanitizeStr)).countP (fun c => c.primary_key) = 1 :=
  ((buildColumns_key_structure ["Name", "Id"]).2 (by decide)).2.2.1

/-- C6: during a single file's import, a data row enters the insert batch
exactly when its field count equals the header's field count: the collected
batch is literally the filter-then-zip of the data rows. -/
theorem collectRows_exactly_well_formed (headers sanitized_headers : List String)
    (dataRows : List (List String)) :
    collectRows headers sanitized_headers dataRows =
      wellFormedBatch headers sanitized_headers dataRows := by
  induction dataRows with
  | nil => rfl
  | cons r rest ih =>
    rw [wellFormedBatch] at ih ⊢
    simp only [collectRows, List.filter_cons]
    rcases hr : r.length == headers.length with _ | _
    · simp [bne, hr, ih]
    · simp [bne, hr, ih]

/-- C4: CSV import is idempotent at the table level: if the sanitized base
name already exists as a table the import leaves the state unchanged, and
running the same file's import twice equals running it once. -/
theorem import_single_csv_file_idempotent (st : DbState) (f : CsvFile) :
    (hasTable st (sanitizeStr f.base_name) = true → import_single_csv_file st f = st) ∧
      import_single_csv_file (import_single_csv_file st f) f =
        import_single_csv_file st f := by
  constructor
  · intro h
    rw [import_single_csv_file, if_pos h]
  · rcases h : hasTable st (sanitizeStr f.base_name) with _ | _
    · rcases hc : f.content with _ | ⟨headers, dataRows⟩
      · simp [import_single_csv_file, h, hc]
      · rcases hh : headers.isEmpty with _ | _
        · have hstep : import_single_csv_file st f =
              st ++ [(sanitizeStr f.base_name,
                ⟨buildColumns (headers.map sanitizeStr),
                 collectRows headers (headers.map sanitizeStr) dataRows⟩)] := by
            simp [import_single_csv_file, h, hc, hh]
          have hnow : hasTable (st ++ [(sanitizeStr f.base_name,
              ⟨buildColumns (headers.map sanitizeStr),
               collectRows headers (headers.map sanitizeStr) dataRows⟩)])
              (sanitizeStr f.base_name) = true := by
            rw [hasTable, List.any_append]
            simp
          rw [hstep, import_single_csv_file, if_pos hnow]
        · simp [import_single_csv_file, h, hc, hh]
    · have h1 : import_single_csv_file st f = st := by
        rw [import_single_csv_file, if_pos h]
      rw [h1, import_single_csv_file, if_pos h]

/-- C4 witness: importing the file `t.csv` into a database that already has
table `t` leaves the state unchanged. -/
theorem import_single_csv_file_idempotent_witness :
    import_single_csv_file [("t", ⟨[], []⟩)] ⟨"t", [["a"], ["1"]]⟩ = [("t", ⟨[], []⟩)] :=
  (import_single_csv_file_idempotent [("t", ⟨[], []⟩)] ⟨"t", [["a"], ["1"]]⟩).1 (by decide)

/-- C7: with an engine present, the batch driver attempts every file in its
input list — per-file failures are caught at the loop body, so the pass is
always complete and the final state is the fold of the caught per-file step
over the whole list. -/
theorem import_csv_files_full_pass (impOne : DbState → String → Except String DbState)
    (st : DbState) (files : List String) :
    (import_csv_files impOne true st files).2 = files ∧
      (import_csv_files impOne true st files).1 = files.foldl (caughtStep impOne) st := by
  rw [import_csv_files, if_pos rfl]
  induction files generalizing st with
  | nil => exact ⟨rfl, rfl⟩
  | cons f rest ih =>
    simp only [import_batch, List.foldl]
    exact ⟨congrArg (List.cons f) (ih (caughtStep impOne st f)).1,
      (ih (caughtStep impOne st f)).2⟩

/- ## Database service: query execution (`DatabaseService.execute_query`) -/

/-- A SQL cell value as it appears in a result mapping. -/
inductive SqlValue
  | str (s : String)
  | int (i : Int)
deriving DecidableEq

/-- The SQLAlchemy `CursorResult` as `execute_query` consumes it: whether the
statement returned rows, the cursor's output column names, the row values,
and the DBAPI `rowcount` (`none` models Python `None`; PEP 249 drivers may
report `-1` when the count cannot be determined). -/
structure CursorResult where
  returns_rows : Bool
  keys : List String
  rowvals : List (List SqlValue)
  rowcount : Option Int
deriving DecidableEq

/-- One element of `result.mappings()`: an association list from column name
to value. -/
abbrev ResultRow := List (String × SqlValue)

/-- Shallow embedding of `DatabaseService.execute_query` over an execution
oracle `ex` standing for `conn.execute(text(query))`: raise (error) without an
engine; propagate backend errors; return all row mappings for row-returning
statements; otherwise return the single
`{"status": "success", "affected_rows": rowcount if rowcount is not None else 0}`
record. -/
def execute_query (ex : String → Except String CursorResult) (engine : Bool)
    (query : String) : Except String (List ResultRow) :=
  if !engine then Except.error "Database engine is not initialized."
  else
    match ex query with
    | Except.error e => Except.error e
    | Except.ok res =>
      if res.returns_rows then
        Except.ok (res.rowvals.map (fun vs => res.keys.zip vs))
      else
        Except.ok [[("status", SqlValue.str "success"),
                    ("affected_rows", SqlValue.int (res.rowcount.getD 0))]]

/- ## C1 theorems -/

/-- C1 counterexample: a non-row statement whose driver reports
`rowcount = -1` (permitted by PEP 249 when the count cannot be determined,
e.g. DDL on SQLite) yields a status record with a negative affected-row
count, refuting the claimed non-negativity. -/
theorem execute_query_negative_rowcount :
    execute_query (fun _ => Except.ok ⟨false, [], [], some (-1)⟩) true "CREATE TABLE t (x INT)" =
      Except.ok [[("status", SqlValue.str "success"),
                  ("affected_rows", SqlValue.int (-1))]] ∧
      (-1 : Int) < 0 := by
  exact ⟨rfl, by decide⟩

/-- C1 (amended): on an initialized service, a row-returning statement yields
the sequence of all result rows as mappings whose keys equal the cursor's
output column names; a non-row statement yields exactly one
`{status, affected_rows}` record whose count equals the driver-reported
rowcount when present and `0` otherwise — it is non-negative exactly when the
driver reports no count or a non-negative count. -/
theorem execute_query_result_shape (ex : String → Except String CursorResult)
    (q : String) (res : CursorResult) (hex : ex q = Except.ok res)
    (hwf : ∀ vs ∈ res.rowvals, vs.length = res.keys.length) :
    (res.returns_rows = true →
        execute_query ex true q =
            Except.ok (res.rowvals.map (fun vs => res.keys.zip vs)) ∧
          ∀ m ∈ res.rowvals.map (fun vs => res.keys.zip vs),
            m.map Prod.fst = res.keys) ∧
      (res.returns_rows = false →
        execute_query ex true q =
            Except.ok [[("status", SqlValue.str "success"),
              ("affected_rows", SqlValue.int (res.rowcount.getD 0))]] ∧
          (0 ≤ res.rowcount.getD 0 ↔
            res.rowcount = none ∨ ∃ k, res.rowcount = some k ∧ 0 ≤ k)) := by
  constructor
  · intro hr
    constructor
    · rw [execute_query]
      simp [hex, hr]
    · intro m hm
      rcases List.mem_map.mp hm with ⟨vs, hvs, hzip⟩
      rw [← hzip]
      have hlen := hwf vs hvs
      exact List.map_fst_zip res.keys vs (by omega)
  · intro hr
    constructor
    · rw [execute_query]
      simp [hex, hr]
    · rcases hrc : res.rowcount with _ | k
      · simp
      · simp

/-- C1 witness: a concrete row-returning statement produces its single row
mapping unchanged. -/
theorem execute_query_result_shape_witness :
    execute_query (fun _ => Except.ok ⟨true, ["a"], [[SqlValue.int 1]], none⟩) true "SELECT 1" =
      Except.ok [[("a", SqlValue.int 1)]] :=
  ((execute_query_result_shape (fun _ => Except.ok ⟨true, ["a"], [[SqlValue.int 1]], none⟩)
      "SELECT 1" ⟨true, ["a"], [[SqlValue.int 1]], none⟩ rfl
      (by intro vs hvs; simp only [List.mem_singleton] at hvs; rw [hvs]; rfl)).1 rfl).1

/- ## Database service: sample values (`DatabaseService.get_unique_values`) -/

/-- The dialect dispatch of `get_unique_values`: one sampling query per
supported engine name, `none` when no branch assigns `query` (the Python
local stays unbound). -/
def buildSampleQuery (dialect table_name column_name : String) (limit : Nat) : Option String :=
  if dialect == "mysql" then
    some ("SELECT DISTINCT `" ++ column_name ++ "` FROM `" ++ table_name ++ "` WHERE `" ++
      column_name ++ "` IS NOT NULL ORDER BY RAND() LIMIT " ++ toString limit)
  else if dialect == "postgresql" then
    some ("SELECT DISTINCT \"" ++ column_name ++ "\" FROM \"" ++ table_name ++ "\" WHERE \"" ++
      column_name ++ "\" IS NOT NULL ORDER BY RANDOM() LIMIT " ++ toString limit)
  else if dialect == "sqlite" then
    some ("SELECT DISTINCT \"" ++ column_name ++ "\" FROM \"" ++ table_name ++ "\" WHERE \"" ++
      column_name ++ "\" IS NOT NULL ORDER BY RANDOM() LIMIT " ++ toString limit)
  else if dialect == "sqlserver" then
    some ("SELECT DISTINCT TOP " ++ toString limit ++ " [" ++ column_name ++ "] FROM [" ++
      table_name ++ "] WHERE [" ++ column_name ++ "] IS NOT NULL")
  else none

/-- Python `row[column_name]` on one result mapping: `KeyError` (none) when
the column is absent. -/
def lookupColumn (column_name : String) : ResultRow → Option SqlValue
  | [] => none
  | (k, v) :: rest => if k == column_name then some v else lookupColumn column_name rest

/-- The body of the `try:` block in `get_unique_values` (plus the preceding
dialect dispatch, whose unassigned-`query` `NameError` is raised inside the
`try` when `self.execute_query(query)` evaluates `query`): any of the
`NameError`, a backend failure, or a `KeyError` in the comprehension
surfaces as an exception. -/
def get_unique_values_body (ex : String → Except String CursorResult)
    (dialect table_name column_name : String) (limit : Nat) :
    Except String (List SqlValue) :=
  match buildSampleQuery dialect table_name column_name limit with
  | none => Except.error "NameError: local variable referenced before assignment"
  | some q =>
    match execute_query ex true q with
    | Except.error e => Except.error e
    | Except.ok results =>
      match results.mapM (lookupColumn column_name) with
      | none => Except.error "KeyError"
      | some vals => Except.ok vals

/-- Shallow embedding of `DatabaseService.get_unique_values`: raise (error)
without an engine; otherwise run the body under `except Exception`, turning
every failure into the empty list. -/
def get_unique_values (ex : String → Except String CursorResult) (engine : Bool)
    (dialect table_name column_name : String) (limit : Nat) :
    Except String (List SqlValue) :=
  if !engine then Except.error "Database engine is not initialized."
  else
    match get_unique_values_body ex dialect table_name column_name limit with
    | Except.ok vals => Except.ok vals
    | Except.error _ => Except.ok []

/-- The per-column record built by `get_detailed_schema_representation`: the
`sample_values` attribute is set only when the fetched list is non-empty. -/
structure ColInfo where
  type_str : String
  nullable : Bool
  sample_values : Option (List SqlValue)
deriving DecidableEq

/-- The `if unique_vals: col_info["sample_values"] = unique_vals` step of
`get_detailed_schema_representation` (Python list truthiness = non-empty). -/
def buildColInfo (type_str : String) (nullable : Bool)
    (unique_vals : List SqlValue) : ColInfo :=
  ⟨type_str, nullable, if unique_vals.isEmpty then none else some unique_vals⟩

/- ## C8 / C10 theorems -/

/-- C8: on an initialized service `get_unique_values` never raises: it always
returns a value; any failure of the try-block body yields the empty list; a
column on an empty table (backend returns a row set with no rows) yields the
empty list; and when the fetched list is empty the enclosing schema
inspection omits the `sample_values` attribute. -/
theorem get_unique_values_non_fatal (ex : String → Except String CursorResult)
    (dialect table_name column_name : String) (limit : Nat) :
    (∃ vals, get_unique_values ex true dialect table_name column_name limit =
        Except.ok vals) ∧
      (∀ e, get_unique_values_body ex dialect table_name column_name limit =
          Except.error e →
        get_unique_values ex true dialect table_name column_name limit =
          Except.ok []) ∧
      (∀ q keys rc, buildSampleQuery dialect table_name column_name limit = some q →
        ex q = Except.ok ⟨true, keys, [], rc⟩ →
        get_unique_values ex true dialect table_name column_name limit =
          Except.ok []) ∧
      (∀ t nb vals,
        get_unique_values ex true dialect table_name column_name limit =
          Except.ok vals →
        vals = [] → (buildColInfo t nb vals).sample_values = none) := by
  refine ⟨?_, ?_, ?_, ?_⟩
  · rw [get_unique_values]
    rcases hb : get_unique_values_body ex dialect table_name column_name limit with e | vals
    · exact ⟨[], by simp [hb]⟩
    · exact ⟨vals, by simp [hb]⟩
  · intro e he
    rw [get_unique_values]
    simp [he]
  · intro q keys rc hq hex
    have hb : get_unique_values_body ex dialect table_name column_name limit =
        Except.ok [] := by
      rw [get_unique_values_body, hq]
      simp [execute_query, hex, List.mapM.loop]
    rw [get_unique_values]
    simp [hb]
  · intro t nb vals _ hnil
    rw [hnil, buildColInfo]
    rfl

/-- C8 witness: an unreachable backend (every execution fails) yields the
empty list rather than an exception. -/
theorem get_unique_values_non_fatal_witness :
    get_unique_values (fun _ => Except.error "connection refused") true
      "sqlite" "t" "c" 3 = Except.ok [] :=
  (get_unique_values_non_fatal (fun _ => Except.error "connection refused")
      "sqlite" "t" "c" 3).2.1 "connection refused" rfl

/-- C10: for every table, column and limit, if the engine's dialect name is
none of `mysql`, `postgresql`, `sqlite`, `sqlserver`, then no branch assigns
the sampling query, the resulting unbound-variable error is swallowed by the
surrounding handler, and `get_unique_values` returns the empty list without
raising. -/
theorem get_unique_values_unknown_dialect (ex : String → Except String CursorResult)
    (dialect table_name column_name : String) (limit : Nat)
    (h : dialect ≠ "mysql" ∧ dialect ≠ "postgresql" ∧ dialect ≠ "sqlite" ∧
      dialect ≠ "sqlserver") :
    get_unique_values ex true dialect table_name column_name limit = Except.ok [] := by
  obtain ⟨h1, h2, h3, h4⟩ := h
  have hq : buildSampleQuery dialect table_name column_name limit = none := by
    rw [buildSampleQuery]
    rw [if_neg (by simp [h1]), if_neg (by simp [h2]), if_neg (by simp [h3]),
      if_neg (by simp [h4])]
  have hb : get_unique_values_body ex dialect table_name column_name limit =
      Except.error "NameError: local variable referenced before assignment" := by
    rw [get_unique_values_body, hq]
  rw [get_unique_values]
  simp [hb]

/-- C10 witness: the unsupported dialect `oracle` yields the empty list. -/
theorem get_unique_values_unknown_dialect_witness :
    get_unique_values (fun _ => Except.ok ⟨true, ["c"], [[SqlValue.int 7]], none⟩) true
      "oracle" "t" "c" 3 = Except.ok [] :=
  get_unique_values_unknown_dialect (fun _ => Except.ok ⟨true, ["c"], [[SqlValue.int 7]], none⟩)
    "oracle" "t" "c" 3 (by refine ⟨?_, ?_, ?_, ?_⟩ <;> decide)

/- ## Dialect engine construction (`_create_engine` keyword arguments) -/

/-- The keyword arguments a dialect service passes to
`sqlalchemy.create_engine`: pool settings and the driver-level
`connect_args` mapping (numeric-valued entries only, which covers every
entry the source passes). -/
structure EngineArgs where
  pool_size : Option Nat
  max_overflow : Option Nat
  pool_timeout : Option Nat
  pool_recycle : Option Nat
  pool_pre_ping : Bool
  connect_args : List (String × Nat)
deriving DecidableEq

/-- `MySQLService._create_engine` keyword arguments. -/
def mysql_create_engine_args (query_timeout : Nat) : EngineArgs :=
  ⟨some 5, some 10, some 30, some 1800, true, [("connect_timeout", query_timeout)]⟩

/-- `PostgresService._create_engine` keyword arguments. -/
def postgres_create_engine_args (query_timeout : Nat) : EngineArgs :=
  ⟨some 5, some 10, some 30, some 1800, true, [("connect_timeout", query_timeout)]⟩

/-- `SQLServerService._create_engine` keyword arguments: pool settings only,
no `connect_args` at all (the `query_timeout` the service holds is unused
here, exactly as in the source). -/
def sqlserver_create_engine_args (_query_timeout : Nat) : EngineArgs :=
  ⟨some 5, some 10, some 30, some 1800, true, []⟩

/-- `SQLiteService._create_engine` keyword arguments. -/
def sqlite_create_engine_args (query_timeout : Nat) : EngineArgs :=
  ⟨none, none, none, none, false, [("timeout", query_timeout)]⟩

/- ## C9 theorems -/

/-- C9 counterexample: SQL Server is a network dialect, yet its engine
construction passes no `connect_args` and therefore sets no connect-level
timeout at all, refuting the claim for that dialect. -/
theorem sqlserver_no_connect_timeout :
    (sqlserver_create_engine_args 30).connect_args = [] := rfl

/-- C9 (amended): MySQL and PostgreSQL engine construction passes a
connect-level timeout argument whose value is the service's query timeout
(the same number, a separate driver knob); SQL Server engine construction
passes no connect-level timeout. -/
theorem network_dialect_connect_timeouts (query_timeout : Nat) :
    (mysql_create_engine_args query_timeout).connect_args =
        [("connect_timeout", query_timeout)] ∧
      (postgres_create_engine_args query_timeout).connect_args =
        [("connect_timeout", query_timeout)] ∧
      (sqlserver_create_engine_args query_timeout).connect_args = [] :=
  ⟨rfl, rfl, rfl⟩

/- ## Python character-model abstraction (C3) -/

/-- The character primitives the sanitizer runs on. Python's `str` methods
use the Unicode character database (part of the language runtime, not of the
repository): `str.isalnum` / `str.isdigit` are per-character predicates and
`str.lower` is the per-character full lowercase mapping, which may expand one
character to several. -/
structure PyStrModel where
  isalnum : Char → Bool
  isdigit : Char → Bool
  lower : Char → List Char

/-- `"".join(c if c.isalnum() else "_" for c in identifier)` under a given
character model. -/
def replaceNonAlnumWith (M : PyStrModel) (s : List Char) : List Char :=
  s.map (fun c => if M.isalnum c then c else '_')

/-- `sanitized[0].isdigit()` (guarded by emptiness) under a given character
model. -/
def headIsDigitWith (M : PyStrModel) : List Char → Bool
  | [] => false
  | c :: _ => M.isdigit c

/-- The `tbl_`/`col_` reassignment step of `_sanitize_identifier` under a
given character model. -/
def applyOutsidePreWith (M : PyStrModel) (s : List Char) : List Char :=
  if s.isEmpty || headIsDigitWith M s || headIsUnderscore s then
    if s.isEmpty || headIsDigitWith M s then
      't' :: 'b' :: 'l' :: '_' :: s
    else
      'c' :: 'o' :: 'l' :: '_' :: s
  else s

/-- Python `sanitized.lower()`: the concatenation of each character's full
lowercase mapping. -/
def lowerWith (M : PyStrModel) (s : List Char) : List Char :=
  (s.map M.lower).flatten

/-- `CsvImportService._sanitize_identifier` over an explicit character
model: the same three steps as `sanitize_identifier`, with the character
primitives supplied by `M`. -/
def sanitizeWith (M : PyStrModel) (identifier : List Char) : List Char :=
  lowerWith M (applyOutsidePreWith M (replaceNonAlnumWith M identifier))

/-- An ASCII code point. -/
def isAsciiChar (c : Char) : Bool := c.toNat < 128

/-- A character model that agrees with Python on ASCII: on code points below
128 Python's `str.isalnum` / `str.isdigit` coincide with the ASCII
predicates and `str.lower` maps a character to its single ASCII lowercase. -/
def asciiFaithful (M : PyStrModel) : Prop :=
  ∀ c : Char, isAsciiChar c = true →
    M.isalnum c = c.isAlphanum ∧ M.isdigit c = c.isDigit ∧ M.lower c = [Char.toLower c]

/-- Modelled from the spec: the Unicode tables Python's `str` methods consult
are runtime data outside `src/`. This reference model is faithful on ASCII
(where it coincides with the ASCII semantics used throughout) and on the two
non-ASCII code points the non-idempotence counterexample exercises, with
their UnicodeData properties: U+0130 (LATIN CAPITAL LETTER I WITH DOT ABOVE)
is alphabetic and its full lowercase mapping is U+0069 followed by U+0307;
U+0307 (COMBINING DOT ABOVE, category Mn, not alphanumeric) lowercases to
itself. Remaining non-ASCII code points default to non-alphanumeric with
identity lowercase and are relied on by no theorem. -/
def pyUnicodeRefModel : PyStrModel :=
  ⟨fun c => if c.toNat < 128 then c.isAlphanum else c.toNat == 304,
   fun c => if c.toNat < 128 then c.isDigit else false,
   fun c =>
     if c.toNat < 128 then [Char.toLower c]
     else if c.toNat == 304 then [Char.ofNat 105, Char.ofNat 775]
     else [c]⟩

/- ## ASCII-agreement lemmas for the character-model sanitizer -/

theorem map_eq_of_mem {l : List Char} {f g : Char → Char} (h : ∀ c ∈ l, f c = g c) :
    l.map f = l.map g := by
  induction l with
  | nil => rfl
  | cons c rest ih =>
    simp only [List.map]
    rw [h c (by simp), ih (fun d hd => h d (by simp [hd]))]

theorem isAscii_toLower (c : Char) (h : isAsciiChar c = true) :
    isAsciiChar (Char.toLower c) = true := by
  rw [isAsciiChar] at h ⊢
  rw [toLower_toNat]
  simp only [decide_eq_true_eq] at h ⊢
  split <;> omega

theorem all_ascii_replaceNonAlnum (x : List Char) (hx : x.all isAsciiChar = true) :
    (replaceNonAlnum x).all isAsciiChar = true := by
  rw [List.all_eq_true] at hx ⊢
  intro c hc
  rcases List.mem_map.mp hc with ⟨d, hd, hdc⟩
  rw [← hdc, replaceChar]
  split
  · exact hx d hd
  · decide

theorem all_ascii_applyOutsidePre (r : List Char) (hr : r.all isAsciiChar = true) :
    (applyOutsidePre r).all isAsciiChar = true := by
  rw [List.all_eq_true] at hr ⊢
  intro d hd
  rw [applyOutsidePre] at hd
  split at hd
  · split at hd <;>
      simp only [List.mem_cons] at hd <;>
        rcases hd with rfl | rfl | rfl | rfl | hd <;>
          first
            | decide
            | exact hr d hd
  · exact hr d hd

theorem sanitize_identifier_all_ascii (x : List Char) (hx : x.all isAsciiChar = true) :
    (sanitize_identifier x).all isAsciiChar = true := by
  rw [sanitize_identifier, List.all_eq_true]
  intro c hc
  rcases List.mem_map.mp hc with ⟨d, hd, hdc⟩
  have hp := List.all_eq_true.mp (all_ascii_applyOutsidePre _ (all_ascii_replaceNonAlnum x hx))
  rw [← hdc]
  exact isAscii_toLower d (hp d hd)

theorem lowerWith_eq_on_ascii (M : PyStrModel) (hA : asciiFaithful M)
    (p : List Char) (hp : p.all isAsciiChar = true) :
    lowerWith M p = p.map Char.toLower := by
  induction p with
  | nil => rfl
  | cons c rest ih =>
    rw [List.all_cons, Bool.and_eq_true] at hp
    rw [lowerWith] at ih ⊢
    simp only [List.map, List.flatten_cons]
    rw [(hA c hp.1).2.2, ih hp.2]
    rfl

theorem sanitizeWith_eq_on_ascii (M : PyStrModel) (hA : asciiFaithful M)
    (x : List Char) (hx : x.all isAsciiChar = true) :
    sanitizeWith M x = sanitize_identifier x := by
  have hx' := List.all_eq_true.mp hx
  have hrep : replaceNonAlnumWith M x = replaceNonAlnum x := by
    rw [replaceNonAlnumWith, replaceNonAlnum]
    exact map_eq_of_mem (fun c hc => by rw [(hA c (hx' c hc)).1, replaceChar])
  have hrascii := all_ascii_replaceNonAlnum x hx
  have hhd : headIsDigitWith M (replaceNonAlnum x) = headIsDigit (replaceNonAlnum x) := by
    rcases hr : replaceNonAlnum x with _ | ⟨c, rest⟩
    · rfl
    · rw [headIsDigitWith, headIsDigit]
      have hc : isAsciiChar c = true := by
        rw [hr, List.all_cons, Bool.and_eq_true] at hrascii
        exact hrascii.1
      exact (hA c hc).2.1
  have happly : applyOutsidePreWith M (replaceNonAlnum x) =
      applyOutsidePre (replaceNonAlnum x) := by
    rw [applyOutsidePreWith, applyOutsidePre, hhd]
  rw [sanitizeWith, hrep, happly, sanitize_identifier]
  exact lowerWith_eq_on_ascii M hA _ (all_ascii_applyOutsidePre _ hrascii)

/- ## C3 theorems -/

/-- C3 counterexample: the sanitizer is not idempotent on every string. On
`"İ"` (the single code point U+0130) the first pass keeps the alphabetic
character and lowercases it to U+0069 U+0307, while the second pass replaces
the non-alphanumeric combining mark U+0307 with `_`, so sanitizing twice
differs from sanitizing once. -/
theorem sanitize_not_idempotent_unicode :
    sanitizeWith pyUnicodeRefModel (sanitizeWith pyUnicodeRefModel [Char.ofNat 304]) ≠
      sanitizeWith pyUnicodeRefModel [Char.ofNat 304] := by
  decide

/-- C3 (amended): under any character model that agrees with Python on ASCII,
the sanitizer is idempotent on every ASCII string (on full Unicode input
idempotence fails, see the counterexample); and each of `sanitize("")`,
`sanitize("123abc")`, `sanitize("_foo")` is a non-empty, lower-case,
alphanumeric-or-underscore identifier starting with a letter. -/
theorem sanitize_idempotent_ascii_and_shape :
    (∀ M : PyStrModel, asciiFaithful M →
        ∀ x : List Char, x.all isAsciiChar = true →
          sanitizeWith M (sanitizeWith M x) = sanitizeWith M x) ∧
      isSafeLowerIdentifier (sanitizeStr "") = true ∧
      isSafeLowerIdentifier (sanitizeStr "123abc") = true ∧
      isSafeLowerIdentifier (sanitizeStr "_foo") = true := by
  refine ⟨?_, by decide, by decide, by decide⟩
  intro M hA x hx
  have h1 : sanitizeWith M x = sanitize_identifier x := sanitizeWith_eq_on_ascii M hA x hx
  rw [h1, sanitizeWith_eq_on_ascii M hA _ (sanitize_identifier_all_ascii x hx),
    sanitize_identifier_idem]

/-- C3 witness: idempotence at the concrete ASCII input `"A1"` under the
Unicode reference model (which agrees with Python on ASCII). -/
theorem sanitize_idempotent_ascii_and_shape_witness :
    sanitizeWith pyUnicodeRefModel (sanitizeWith pyUnicodeRefModel ['A', '1']) =
      sanitizeWith pyUnicodeRefModel ['A', '1'] :=
  sanitize_idempotent_ascii_and_shape.1 pyUnicodeRefModel
    (by
      intro c hc
      have hlt : c.toNat < 128 := by
        rw [isAsciiChar, decide_eq_true_eq] at hc
        exact hc
      refine ⟨?_, ?_, ?_⟩ <;> simp [pyUnicodeRefModel, hlt])
    ['A', '1'] (by decide)
